import Mathlib

/-!
Verification of the chart engine in `src/ui.js` (Token Usage Tracker).

The JavaScript is shallowly embedded as follows.

* JavaScript numbers are modelled by `JSVal`: an exact rational (`JSVal.num`),
  `NaN` (`JSVal.nan`), or a signed infinity (`JSVal.inf s`, with `s = true`
  for positive infinity).  Arithmetic on exact values is treated as exact
  (no floating-point rounding); the IEEE-754 special-value rules for
  `NaN` and infinities are modelled faithfully, because the axis code in
  `renderChart` (lines 107-118 of `src/ui.js`) relies on them when the data
  maximum is `0`.  The model has no negative zero; none of the inputs
  considered here can produce one.
* Dates are modelled by integers.  An instant is a count of milliseconds
  since the Unix epoch (what `Date.prototype.getTime` returns); the host
  timezone is a fixed offset `o` in milliseconds (DST transitions are not
  modelled).  A calendar date is identified with its local day number `n`
  (days since 1970-01-01 in local time); `civilFromDays` recovers the
  year / month / day fields that `getFullYear` / `getMonth` / `getDate`
  expose, and `(n + 4) % 7` is `getDay` (1970-01-01 was a Thursday).
* `Math.sin` is transcendental, so the generator is parameterised by an
  arbitrary function `sinQ : ℤ → ℚ` standing for it; the general theorems
  below hold for all such functions, hence in particular for the real
  sine.  `sinZero` is the concrete instance used in closed witness
  statements.
* The sample labels `displayDate` and `fullDate` (locale formatting of the
  date, lines 33-34) are deterministic string renderings of the date and
  are not modelled; no claim mentions them.
-/

/-- A JavaScript number: an exact rational, NaN, or a signed infinity
(`inf true` is positive infinity). -/
inductive JSVal where
  | num : ℚ → JSVal
  | nan : JSVal
  | inf : Bool → JSVal
deriving DecidableEq, Repr

/-- JavaScript multiplication on `JSVal` (IEEE-754 rules: NaN absorbs,
zero times infinity is NaN, infinities multiply by sign). -/
def jsMul : JSVal → JSVal → JSVal
  | .nan, _ => .nan
  | _, .nan => .nan
  | .num a, .num b => .num (a * b)
  | .num a, .inf s => if a = 0 then .nan else if 0 < a then .inf s else .inf (!s)
  | .inf s, .num b => if b = 0 then .nan else if 0 < b then .inf s else .inf (!s)
  | .inf s, .inf t => .inf (s == t)

/-- JavaScript division on `JSVal`.  `0 / 0` is NaN, a nonzero finite value
divided by (positive) zero is a signed infinity, finite over infinite is
zero, infinite over infinite is NaN. -/
def jsDiv : JSVal → JSVal → JSVal
  | .nan, _ => .nan
  | _, .nan => .nan
  | .num a, .num b =>
      if b = 0 then (if a = 0 then .nan else .inf (0 < a)) else .num (a / b)
  | .num _, .inf _ => .num 0
  | .inf s, .num b => if b = 0 then .inf s else if 0 < b then .inf s else .inf (!s)
  | .inf _, .inf _ => .nan

/-- `Math.ceil`: NaN and infinities pass through. -/
def jsCeil : JSVal → JSVal
  | .num a => .num ⌈a⌉
  | .nan => .nan
  | .inf s => .inf s

/-- The JavaScript comparison `x < y`: any comparison involving NaN is
false. -/
def jsLt : JSVal → JSVal → Bool
  | .nan, _ => false
  | _, .nan => false
  | .num a, .num b => decide (a < b)
  | .num _, .inf s => s
  | .inf s, .num _ => !s
  | .inf s, .inf t => !s && t

/-- The compound `Math.pow(10, Math.floor(Math.log10 x))` from line 109 of
`src/ui.js`.  For a positive rational the floor of its base-10 logarithm is
`Int.log 10`.  For `x = 0`: `log10` gives negative infinity, `floor` keeps
it, and `pow(10, -Infinity)` is `+0`.  For negative `x`, `log10` is NaN and
NaN propagates through `floor` and `pow`.  `pow(10, Infinity) = Infinity`. -/
def jsMagnitude : JSVal → JSVal
  | .num a =>
      if 0 < a then .num ((10 : ℚ) ^ Int.log 10 a)
      else if a = 0 then .num 0
      else .nan
  | .nan => .nan
  | .inf s => if s then .inf true else .nan

/-- Lines 108-115 of `src/ui.js`, the tick-step computation:

    const roughStep = maxUsage / 4;
    const magnitude = Math.pow(10, Math.floor(Math.log10(roughStep)));
    let step = Math.ceil(roughStep / magnitude) * magnitude;
    if (step / magnitude < 1.5) step = 1 * magnitude;
    else if (step / magnitude < 3) step = 2.5 * magnitude;
    else if (step / magnitude < 7) step = 5 * magnitude;
    else step = 10 * magnitude;
-/
def computeStep (maxUsage : JSVal) : JSVal :=
  let roughStep := jsDiv maxUsage (.num 4)
  let magnitude := jsMagnitude roughStep
  let step1 := jsMul (jsCeil (jsDiv roughStep magnitude)) magnitude
  if jsLt (jsDiv step1 magnitude) (.num (3 / 2)) then jsMul (.num 1) magnitude
  else if jsLt (jsDiv step1 magnitude) (.num 3) then jsMul (.num (5 / 2)) magnitude
  else if jsLt (jsDiv step1 magnitude) (.num 7) then jsMul (.num 5) magnitude
  else jsMul (.num 10) magnitude

/-- Lines 117-118 of `src/ui.js`:

    let niceMax = Math.ceil(maxUsage / step) * step;
    if (niceMax === 0) niceMax = 5000;

The strict equality `NaN === 0` is false, so the fallback fires only when
`niceMax` is exactly the number `0`. -/
def computeNiceMax (maxUsage : JSVal) : JSVal :=
  let step := computeStep maxUsage
  let nm := jsMul (jsCeil (jsDiv maxUsage step)) step
  if nm = .num 0 then .num 5000 else nm

/-- The step-selection rule exactly as claim C3 words it: the multiplier
thresholds are applied to the raw ratio `r = roughStep / magnitude`. -/
def specStepClaim (m : ℚ) : ℚ :=
  let roughStep := m / 4
  let magnitude : ℚ := (10 : ℚ) ^ Int.log 10 roughStep
  let r := roughStep / magnitude
  (if r < 3 / 2 then 1 else if r < 3 then 5 / 2 else if r < 7 then 5 else 10) * magnitude

/-- The step-selection rule the code actually implements: the multiplier
thresholds are applied to the rounded-up ratio `⌈roughStep / magnitude⌉`
(the provisional step divided by the magnitude), not to the raw ratio. -/
def specStepAmended (m : ℚ) : ℚ :=
  let roughStep := m / 4
  let magnitude : ℚ := (10 : ℚ) ^ Int.log 10 roughStep
  let r : ℚ := (⌈roughStep / magnitude⌉ : ℤ)
  (if r < 3 / 2 then 1 else if r < 3 then 5 / 2 else if r < 7 then 5 else 10) * magnitude

/-- One day in milliseconds, the divisor on line 20 of `src/ui.js`. -/
def DAY : ℤ := 86400000

/-- Line 20 of `src/ui.js`, `Math.floor(date.getTime() / 86400000)`, for
the sample whose local day number is `n`, generated with local time of day
`tod` (milliseconds past local midnight) in a timezone `o` milliseconds
east of UTC.  The underlying instant is `n * DAY + tod - o` UTC
milliseconds. -/
def dayIndexOf (o tod n : ℤ) : ℤ := (n * DAY + tod - o).fdiv DAY

/-- Gregorian calendar fields `(year, month, day)` (month `1..12`) of the
day number `z` (days since 1970-01-01); the standard era-based civil
calendar algorithm.  This is what `getFullYear()`, `getMonth() + 1` and
`getDate()` return for a `Date` lying on local day `z`. -/
def civilFromDays (z : ℤ) : ℤ × ℤ × ℤ :=
  let w := z + 719468
  let era := w.fdiv 146097
  let doe := w - era * 146097
  let yoe := (doe - doe.fdiv 1460 + doe.fdiv 36524 - doe.fdiv 146096).fdiv 365
  let y := yoe + era * 400
  let doy := doe - (365 * yoe + yoe.fdiv 4 - yoe.fdiv 100)
  let mp := (5 * doy + 2).fdiv 153
  let d := doy - (153 * mp + 2).fdiv 5 + 1
  let m := mp + (if mp < 10 then 3 else -9)
  (if m ≤ 2 then y + 1 else y, m, d)

/-- Local day of week, `Date.prototype.getDay`, for local day number `n`:
`0` is Sunday, `6` is Saturday; day `0` (1970-01-01) was a Thursday. -/
def dayOfWeekOf (n : ℤ) : ℤ := (n + 4) % 7

/-- Line 15 of `src/ui.js`: `date.getDay() === 0 || date.getDay() === 6`. -/
def isWeekendDay (n : ℤ) : Bool := dayOfWeekOf n == 0 || dayOfWeekOf n == 6

/-- Line 13 of `src/ui.js`:
`date.getFullYear() * 10000 + (date.getMonth() + 1) * 100 + date.getDate()`. -/
def dateSeedOf (n : ℤ) : ℤ :=
  (civilFromDays n).1 * 10000 + (civilFromDays n).2.1 * 100 + (civilFromDays n).2.2

/-- Lines 14-18 of `src/ui.js`, the baseline before the spike rules:

    const randomFactor = (Math.sin(dateSeed) + 1) / 2;
    let usage = isWeekend ? 1500 : 5000;
    usage += Math.floor(randomFactor * 2500);

with `Math.sin` abstracted by the parameter `sinQ`. -/
def usageBase (sinQ : ℤ → ℚ) (n : ℤ) : ℤ :=
  (if isWeekendDay n then 1500 else 5000) + ⌊(sinQ (dateSeedOf n) + 1) / 2 * 2500⌋

/-- Lines 20-28 of `src/ui.js`, the spike rules layered on the baseline:

    if (dayIndex % 37 === 0) { usage += 45000; }
    else if (dayIndex % 11 === 0) { usage += 15000; }
    else if (dayIndex % 5 === 0 && !isWeekend) { usage += 5000; }

JavaScript `%` is the truncated remainder, but every divisibility test
`x % k === 0` agrees with the Euclidean `% = 0` used here for every sign
of `x`. -/
def usageOn (sinQ : ℤ → ℚ) (o tod n : ℤ) : ℤ :=
  if dayIndexOf o tod n % 37 = 0 then usageBase sinQ n + 45000
  else if dayIndexOf o tod n % 11 = 0 then usageBase sinQ n + 15000
  else if dayIndexOf o tod n % 5 = 0 ∧ isWeekendDay n = false then usageBase sinQ n + 5000
  else usageBase sinQ n

/-- One generated sample: its local calendar date (as a local day number)
and its usage value. -/
structure Sample where
  localDay : ℤ
  usage : ℤ
deriving DecidableEq, Repr

/-- Lines 5-38 of `src/ui.js`, `generateMockData(days)` called at the UTC
instant `tnow` (milliseconds) in a timezone `o` milliseconds east of UTC.
`today = new Date()` has local day number `N = (tnow + o).fdiv DAY` and
local time of day `tod = (tnow + o) % DAY`; the loop
`for (let i = days - 1; i >= 0; i--)` pushes, for `j = 0, ..., days - 1`
(so `i = days - 1 - j`), the sample of local day `N - i = N - days + 1 + j`,
whose `Date` keeps the time of day `tod` (`setDate` preserves the local
clock time).  For `days <= 0` the loop body never runs and the empty array
is returned. -/
def generateMockData (sinQ : ℤ → ℚ) (o tnow days : ℤ) : List Sample :=
  let N := (tnow + o).fdiv DAY
  let tod := (tnow + o) % DAY
  (List.range days.toNat).map fun (j : ℕ) =>
    ⟨N - days + 1 + (j : ℤ), usageOn sinQ o tod (N - days + 1 + (j : ℤ))⟩

/-- A concrete stand-in for the abstracted sine, used in closed witness
statements; the general theorems quantify over every `sinQ`. -/
def sinZero : ℤ → ℚ := fun _ => 0

/-- Top margin, from line 84 of `src/ui.js`. -/
def marginTop : ℚ := 10

/-- Right margin, from line 84 of `src/ui.js`. -/
def marginRight : ℚ := 10

/-- Bottom margin, from line 84 of `src/ui.js`. -/
def marginBottom : ℚ := 25

/-- Left margin, from line 84 of `src/ui.js`. -/
def marginLeft : ℚ := 50

/-- Line 85 of `src/ui.js`: `chartWidth = width - margin.left - margin.right`. -/
def chartWidthOf (width : ℚ) : ℚ := width - marginLeft - marginRight

/-- Line 86 of `src/ui.js`: `chartHeight = height - margin.top - margin.bottom`. -/
def chartHeightOf (height : ℚ) : ℚ := height - marginTop - marginBottom

/-- Line 153 of `src/ui.js`: `totalBarWidth = chartWidth / chartData.length`,
the full slot width of one sample. -/
def totalBarWidthOf (width : ℚ) (len : ℕ) : ℚ := chartWidthOf width / len

/-- An axis-aligned rectangle with origin `(x, y)`, width `w`, height `h`. -/
structure Rect where
  x : ℚ
  y : ℚ
  w : ℚ
  h : ℚ
deriving DecidableEq, Repr

/-- Lines 162 and 169-176 of `src/ui.js`: the hover cursor rectangle of
sample `i` spans the full slot (`x = margin.left + i * totalBarWidth`,
`width = totalBarWidth`) and the full chart height (`y = margin.top`,
`height = chartHeight`). -/
def hoverZoneOf (width height : ℚ) (len i : ℕ) : Rect :=
  ⟨marginLeft + i * totalBarWidthOf width len, marginTop,
    totalBarWidthOf width len, chartHeightOf height⟩

/-- The hover zones produced by one render pass, one per sample, in sample
order (the `chartData.forEach` loop of lines 161-241). -/
def hoverZonesOf (width height : ℚ) (len : ℕ) : List Rect :=
  (List.range len).map (hoverZoneOf width height len)

/-- The observable content of the chart container after a call to
`renderChart`: either emptied with nothing drawn, or an SVG whose
interaction geometry is the listed hover zones.  The bar outlines the same
pass draws are modelled by `barPathD` below and the axis numbers by
`computeStep` / `computeNiceMax` above. -/
inductive RenderResult where
  | cleared
  | drawn (zones : List Rect)
deriving DecidableEq, Repr

/-- Lines 77-81 onward of `src/ui.js`: the guard
`if (width === 0 || height === 0) return;` runs after
`container.innerHTML = ''`; a zero-size viewport leaves the container
emptied, otherwise the pass draws its geometry. -/
def renderChart (width height : ℚ) (data : List ℤ) : RenderResult :=
  if width = 0 ∨ height = 0 then .cleared
  else .drawn (hoverZonesOf width height data.length)

/-- One full `renderChart()` call as a transition on the container state:
line 78 (`container.innerHTML = ''`) discards the previous content
unconditionally, before the zero-size guard is evaluated, so the previous
state never survives the call. -/
def renderInto (_prev : RenderResult) (width height : ℚ) (data : List ℤ) : RenderResult :=
  renderChart width height data

/-- One SVG path command, as emitted in the `pathD` template strings of
lines 205-215 of `src/ui.js`: `M x,y`, a relative vertical line `v dy`, a
relative horizontal line `h dx`, a relative arc `a rx,ry 0 0 1 dx,dy`, and
`z`. -/
inductive PathCmd where
  | moveTo (x y : ℚ)
  | vLine (dy : ℚ)
  | hLine (dx : ℚ)
  | arc (rx ry dx dy : ℚ)
  | close
deriving DecidableEq, Repr

/-- Line 199 of `src/ui.js`: `const r = 4;`. -/
def cornerRadius : ℚ := 4

/-- Lines 203-216 of `src/ui.js`: the bar outline path for a bar at
`(x, y)` with height `h` and width `w`.  Below the corner radius a plain
rectangle is emitted; otherwise a rectangle whose two top corners are arcs
of radius `cornerRadius` and whose bottom corners are square. -/
def barPathD (x y h w : ℚ) : List PathCmd :=
  if h < cornerRadius then
    [.moveTo x (y + h), .vLine (-h), .hLine w, .vLine h, .close]
  else
    [.moveTo x (y + h), .vLine (-(h - cornerRadius)),
     .arc cornerRadius cornerRadius cornerRadius (-cornerRadius),
     .hLine (w - 2 * cornerRadius),
     .arc cornerRadius cornerRadius cornerRadius cornerRadius,
     .vLine (h - cornerRadius), .close]

/-- Whether a path command is an arc (a rounded corner). -/
def isArc : PathCmd → Bool
  | .arc _ _ _ _ => true
  | _ => false

/-- The arc commands of a path, in order. -/
def arcsOf (p : List PathCmd) : List PathCmd := p.filter isArc

/-- The relative horizontal segments of a path, in order. -/
def hSegsOf (p : List PathCmd) : List ℚ :=
  p.filterMap fun c => match c with | .hLine dx => some dx | _ => none

/-! Helper lemmas: concrete evaluations and the step computation on
positive finite inputs. -/

theorem natLog10_1250 : Nat.log 10 1250 = 3 :=
  Nat.log_eq_of_pow_le_of_lt_pow (by norm_num : 10 ^ 3 ≤ 1250) (by norm_num)

theorem intLog10_1250 : Int.log 10 ((1250 : ℚ)) = 3 := by
  rw [show ((1250 : ℚ)) = ((1250 : ℕ) : ℚ) by norm_num, Int.log_natCast]
  exact_mod_cast natLog10_1250

theorem computeStep_at_5000 : computeStep (.num 5000) = .num 2500 := by
  have h4 : jsDiv (.num 5000) (.num 4) = .num 1250 := by
    simp [jsDiv]; norm_num
  have hm : jsMagnitude (.num 1250) = .num 1000 := by
    simp [jsMagnitude, natLog10_1250]; norm_num
  have hc : (⌈(1250 : ℚ) / 1000⌉ : ℤ) = 2 := by rw [Int.ceil_eq_iff]; norm_num
  simp only [computeStep, h4, hm]
  simp [jsDiv, jsCeil, jsMul, jsLt, hc]
  norm_num

theorem specStepClaim_at_5000 : specStepClaim 5000 = 1000 := by
  have h : Int.log 10 ((5000 : ℚ) / 4) = 3 := by
    rw [show (5000 : ℚ) / 4 = 1250 by norm_num]; exact intLog10_1250
  simp only [specStepClaim, h]
  norm_num

theorem computeStep_num_eq (m : ℚ) (hm : 0 < m) :
    computeStep (.num m) = .num (specStepAmended m) := by
  have hR : 0 < m / 4 := by positivity
  have hM : (0 : ℚ) < (10 : ℚ) ^ Int.log 10 (m / 4) := by positivity
  set M : ℚ := (10 : ℚ) ^ Int.log 10 (m / 4) with hMdef
  have h1 : jsDiv (.num m) (.num 4) = .num (m / 4) := by simp [jsDiv]
  have h2 : jsMagnitude (.num (m / 4)) = .num M := by simp [jsMagnitude, hR]
  have h3 : jsDiv (.num (m / 4)) (.num M) = .num (m / 4 / M) := by simp [jsDiv, hM.ne']
  have h5 : jsDiv (.num ((⌈m / 4 / M⌉ : ℚ) * M)) (.num M) = .num (⌈m / 4 / M⌉ : ℚ) := by
    simp [jsDiv, hM.ne']
  simp only [computeStep, h1, h2, h3, jsCeil, jsMul, h5, specStepAmended]
  simp only [jsLt, decide_eq_true_eq]
  split_ifs <;> (simp [jsMul]; try ring)

theorem specStepAmended_pos (m : ℚ) : 0 < specStepAmended m := by
  have hM : (0 : ℚ) < (10 : ℚ) ^ Int.log 10 (m / 4) := by positivity
  simp only [specStepAmended]
  split_ifs <;> positivity

/-- For every positive data maximum the axis computation stays on exact
numbers and yields `⌈maxValue / step⌉ * step` with the step of
`specStepAmended`; this value is positive, an integer multiple of the
step, and at least `maxValue`.  (The `maxValue > 0` part of the guarantee
of claim C1; the claim fails only at `maxValue = 0`.) -/
theorem computeNiceMax_of_pos (m : ℚ) (hm : 0 < m) :
    computeNiceMax (.num m) = .num ((⌈m / specStepAmended m⌉ : ℚ) * specStepAmended m) ∧
    0 < (⌈m / specStepAmended m⌉ : ℚ) * specStepAmended m ∧
    m ≤ (⌈m / specStepAmended m⌉ : ℚ) * specStepAmended m := by
  have hS : 0 < specStepAmended m := specStepAmended_pos m
  have hq : 0 < (⌈m / specStepAmended m⌉ : ℚ) * specStepAmended m := by
    have hds : 0 < m / specStepAmended m := div_pos hm hS
    have hc : (0 : ℚ) < (⌈m / specStepAmended m⌉ : ℚ) := by
      exact_mod_cast Int.ceil_pos.mpr hds
    exact mul_pos hc hS
  have hge : m ≤ (⌈m / specStepAmended m⌉ : ℚ) * specStepAmended m := by
    have hle := Int.le_ceil (m / specStepAmended m)
    calc m = m / specStepAmended m * specStepAmended m := by field_simp
      _ ≤ (⌈m / specStepAmended m⌉ : ℚ) * specStepAmended m :=
          mul_le_mul_of_nonneg_right hle hS.le
  refine ⟨?_, hq, hge⟩
  have h1 : jsDiv (.num m) (.num (specStepAmended m)) = .num (m / specStepAmended m) := by
    simp [jsDiv, hS.ne']
  simp only [computeNiceMax, computeStep_num_eq m hm, h1, jsCeil, jsMul]
  rw [if_neg]
  simp only [JSVal.num.injEq]
  exact hq.ne'

theorem usageBase_sinZero_20757 : usageBase sinZero 20757 = 2750 := by
  have h : isWeekendDay 20757 = true := by decide
  simp [usageBase, h, sinZero]
  norm_num

theorem usageOn_sinZero_halfPastMidnight :
    usageOn sinZero 3600000 1800000 20757 = 2750 := by
  have hd : dayIndexOf 3600000 1800000 20757 = 20756 := by decide
  rw [usageOn, hd]
  norm_num [usageBase_sinZero_20757]

theorem usageOn_sinZero_noon :
    usageOn sinZero 3600000 43200000 20757 = 47750 := by
  have hd : dayIndexOf 3600000 43200000 20757 = 20757 := by decide
  rw [usageOn, hd]
  norm_num [usageBase_sinZero_20757]

/-- For every sine function the value generated for the calendar date
2026-10-31 (local day 20757) in a UTC+1 timezone differs between a
generation run at 00:30 local time and one at 12:00 local time: the spike
selector reads the UTC day of the underlying instant, which is 20756 in
the first case and 20757 (divisible by 37) in the second, while the
baseline (seeded from the calendar date alone) is identical. -/
theorem usage_time_dependence_every_sine (sinQ : ℤ → ℚ) :
    usageOn sinQ 3600000 1800000 20757 + 45000 = usageOn sinQ 3600000 43200000 20757 := by
  have hd1 : dayIndexOf 3600000 1800000 20757 = 20756 := by decide
  have hd2 : dayIndexOf 3600000 43200000 20757 = 20757 := by decide
  rw [usageOn, usageOn, hd1, hd2]
  norm_num

/-! Claim theorems. -/

/-- C1: the claim asserts that for every `maxValue >= 0` the axis
computation returns a strictly positive `niceMax` that is a multiple of
`step` and at least `maxValue`, and that at `maxValue = 0` it
short-circuits to a fixed positive default.  The code violates this at
`maxValue = 0`: `roughStep = 0` makes `magnitude = 0`, `0 / 0` is NaN, and
`niceMax` ends up NaN, so the `niceMax === 0` fallback on line 118 never
fires (`NaN === 0` is false) and no positive default is produced.  This
theorem evaluates the embedded code at the failing input. -/
theorem computeNiceMax_zero_is_nan : computeNiceMax (.num 0) = .nan := by
  simp [computeNiceMax, computeStep, jsDiv, jsMagnitude, jsCeil, jsMul, jsLt]

/-- C2: the claim asserts that the generated value for a calendar date is
a pure function of that date, independent of the time of day of the call.
Refutation at a concrete input: in a UTC+1 timezone (`o = 3600000`), two
one-day generation runs covering the same calendar date (local day 20757,
2026-10-31), one at 00:30 local time (instant 1793403000000) and one at
12:00 local time (instant 1793444400000), produce 2750 versus 47750 for
that same date, because `dayIndex = Math.floor(getTime() / 86400000)` is
the UTC day of the instant, not a function of the calendar date.  (The
theorem `usage_time_dependence_every_sine` shows the discrepancy is forced
for every sine function, so it does not depend on the `sinZero`
instantiation used here.) -/
theorem usage_depends_on_time_of_day :
    generateMockData sinZero 3600000 1793403000000 1 = [⟨20757, 2750⟩] ∧
    generateMockData sinZero 3600000 1793444400000 1 = [⟨20757, 47750⟩] := by
  constructor
  · have hN : Int.fdiv 1793406600000 DAY = 20757 := by decide
    have ht : (1793406600000 : ℤ) % DAY = 1800000 := by decide
    simp only [generateMockData,
      show (1793403000000 + 3600000 : ℤ) = 1793406600000 by norm_num, hN, ht]
    rw [show List.range (Int.toNat 1) = [0] from rfl]
    simp only [List.map_cons, List.map_nil, Nat.cast_zero, add_zero]
    norm_num [usageOn_sinZero_halfPastMidnight]
  · have hN : Int.fdiv 1793448000000 DAY = 20757 := by decide
    have ht : (1793448000000 : ℤ) % DAY = 43200000 := by decide
    simp only [generateMockData,
      show (1793444400000 + 3600000 : ℤ) = 1793448000000 by norm_num, hN, ht]
    rw [show List.range (Int.toNat 1) = [0] from rfl]
    simp only [List.map_cons, List.map_nil, Nat.cast_zero, add_zero]
    norm_num [usageOn_sinZero_noon]

/-- C3, counterexample: at `maxValue = 5000` the code picks step 2500
(`roughStep = 1250`, `magnitude = 1000`, provisional ratio `⌈1.25⌉ = 2`,
and `2 < 3` selects 2.5), while the claimed rule applied to the raw ratio
`1.25 < 1.5` would pick step 1000.  So the step is not chosen by the
thresholds on `r = roughStep / magnitude` as the claim states. -/
theorem computeStep_thresholds_counterexample :
    computeStep (.num 5000) = .num 2500 ∧ specStepClaim 5000 = 1000 ∧
    computeStep (.num 5000) ≠ .num (specStepClaim 5000) := by
  refine ⟨computeStep_at_5000, specStepClaim_at_5000, ?_⟩
  rw [computeStep_at_5000, specStepClaim_at_5000]
  simp only [ne_eq, JSVal.num.injEq]
  norm_num

/-- C3, amended: for every `maxValue > 0` the step is chosen by computing
`roughStep = maxValue / 4` and `magnitude = 10 ^ floor(log10 roughStep)`,
then applying the multiplier thresholds `< 1.5 / < 3 / < 7` to the
rounded-up ratio `⌈roughStep / magnitude⌉` (the provisional step
`⌈roughStep / magnitude⌉ * magnitude` divided by the magnitude), not to
the raw ratio `roughStep / magnitude`. -/
theorem computeStep_applies_thresholds_to_ceil (m : ℚ) (hm : 0 < m) :
    computeStep (.num m) = .num (specStepAmended m) :=
  computeStep_num_eq m hm

theorem computeStep_applies_thresholds_to_ceil_witness :
    (0 : ℚ) < 5000 ∧ computeStep (.num 5000) = .num (specStepAmended 5000) :=
  ⟨by norm_num, computeStep_applies_thresholds_to_ceil 5000 (by norm_num)⟩

/-- C4, counterexample: the claim asserts `days <= 0` is rejected with an
InvalidRange failure and never coerced into a successful empty result, but
`generateMockData(0)` simply never enters its loop and successfully
returns the empty array: there is no validation anywhere in the function. -/
theorem generateMockData_zero_days_returns_empty :
    generateMockData sinZero 0 0 0 = [] := rfl

/-- C4, amended: for every `days <= 0` the generator silently succeeds
with the empty series (the loop `for (let i = days - 1; i >= 0; i--)` body
never runs); no InvalidRange failure exists in the code. -/
theorem generateMockData_nonpos_days_empty (sinQ : ℤ → ℚ) (o tnow days : ℤ)
    (h : days ≤ 0) : generateMockData sinQ o tnow days = [] := by
  simp [generateMockData, Int.toNat_of_nonpos h]

theorem generateMockData_nonpos_days_empty_witness :
    (-5 : ℤ) ≤ 0 ∧ generateMockData sinZero 0 0 (-5) = [] :=
  ⟨by decide, generateMockData_nonpos_days_empty sinZero 0 0 (-5) (by decide)⟩

/-- C5: the spike rules are evaluated in strict priority order with
first-match-wins semantics.  When the ordinal day is divisible by 37 only
the 45000 spike is added, even if 11 (or 5) also divides it; the 15000
spike requires 37 not to match; the 5000 spike requires neither 37 nor 11
to match, the day divisible by 5, and a weekday; otherwise no spike. -/
theorem spike_rules_first_match_wins (sinQ : ℤ → ℚ) (o tod n : ℤ) :
    (dayIndexOf o tod n % 37 = 0 →
        usageOn sinQ o tod n = usageBase sinQ n + 45000) ∧
    (dayIndexOf o tod n % 37 ≠ 0 → dayIndexOf o tod n % 11 = 0 →
        usageOn sinQ o tod n = usageBase sinQ n + 15000) ∧
    (dayIndexOf o tod n % 37 ≠ 0 → dayIndexOf o tod n % 11 ≠ 0 →
        dayIndexOf o tod n % 5 = 0 → isWeekendDay n = false →
        usageOn sinQ o tod n = usageBase sinQ n + 5000) ∧
    (dayIndexOf o tod n % 37 ≠ 0 → dayIndexOf o tod n % 11 ≠ 0 →
        (dayIndexOf o tod n % 5 ≠ 0 ∨ isWeekendDay n = true) →
        usageOn sinQ o tod n = usageBase sinQ n) := by
  refine ⟨fun h37 => by rw [usageOn, if_pos h37],
          fun h37 h11 => by rw [usageOn, if_neg h37, if_pos h11],
          fun h37 h11 h5 hwk => by rw [usageOn, if_neg h37, if_neg h11, if_pos ⟨h5, hwk⟩],
          fun h37 h11 hor => ?_⟩
  rw [usageOn, if_neg h37, if_neg h11, if_neg ?_]
  rcases hor with h | h
  · exact fun hc => h hc.1
  · exact fun hc => by rw [h] at hc; exact Bool.noConfusion hc.2

theorem spike_rules_first_match_wins_witness :
    dayIndexOf 0 0 20757 % 37 = 0 ∧ dayIndexOf 0 0 20757 % 11 = 0 ∧
    usageOn sinZero 0 0 20757 = usageBase sinZero 20757 + 45000 :=
  ⟨by decide, by decide,
   (spike_rules_first_match_wins sinZero 0 0 20757).1 (by decide)⟩

/-- C6: for every `days > 0`, run at any instant in any fixed-offset
timezone, the generator returns exactly `days` samples, oldest first, with
strictly consecutive ascending dates (each local day is the previous plus
one) and the last sample on the current local date. -/
theorem generateMockData_series_shape (sinQ : ℤ → ℚ) (o tnow days : ℤ)
    (hd : 0 < days) :
    ((generateMockData sinQ o tnow days).length : ℤ) = days ∧
    (∀ (i : ℕ) (a b : Sample),
        (generateMockData sinQ o tnow days)[i]? = some a →
        (generateMockData sinQ o tnow days)[i + 1]? = some b →
        b.localDay = a.localDay + 1) ∧
    (generateMockData sinQ o tnow days).getLast?.map Sample.localDay
        = some ((tnow + o).fdiv DAY) := by
  have hn : ((days.toNat : ℤ)) = days := Int.toNat_of_nonneg hd.le
  have hlen : (generateMockData sinQ o tnow days).length = days.toNat := by
    simp only [generateMockData, List.length_map, List.length_range]
  have hget : ∀ (i : ℕ), i < days.toNat →
      (generateMockData sinQ o tnow days)[i]? =
        some ⟨(tnow + o).fdiv DAY - days + 1 + (i : ℤ),
          usageOn sinQ o ((tnow + o) % DAY) ((tnow + o).fdiv DAY - days + 1 + (i : ℤ))⟩ := by
    intro i h
    simp only [generateMockData, List.getElem?_map, List.getElem?_range h, Option.map_some']
  refine ⟨by rw [hlen]; exact hn, ?_, ?_⟩
  · intro i a b ha hb
    have hib : i + 1 < days.toNat := by
      by_contra hcon
      rw [List.getElem?_eq_none (by rw [hlen]; omega)] at hb
      exact Option.noConfusion hb
    have hia : i < days.toNat := Nat.lt_of_succ_lt hib
    rw [hget i hia] at ha
    rw [hget (i + 1) hib] at hb
    rw [← Option.some.inj ha, ← Option.some.inj hb]
    push_cast
    ring
  · rw [List.getLast?_eq_getElem?, hlen, hget (days.toNat - 1) (by omega)]
    simp only [Option.map_some', Option.some.injEq]
    have hcast : ((days.toNat - 1 : ℕ) : ℤ) = days - 1 := by omega
    rw [hcast]
    ring

theorem generateMockData_series_shape_witness :
    (0 : ℤ) < 3 ∧
    (generateMockData sinZero 0 0 3).getLast?.map Sample.localDay
      = some ((0 + 0 : ℤ).fdiv DAY) :=
  ⟨by decide, (generateMockData_series_shape sinZero 0 0 3 (by decide)).2.2⟩

/-- C7: the bar outline is decided exactly at the corner radius (a fixed
4 units): a bar strictly below the radius is emitted as a plain rectangle
with no arcs, and a bar at or above the radius is emitted with exactly the
two top corners as arcs of that radius (the bottom corners are straight
line joins). -/
theorem barPath_rounding_threshold (x y h w : ℚ) :
    (h < cornerRadius →
      barPathD x y h w = [.moveTo x (y + h), .vLine (-h), .hLine w, .vLine h, .close] ∧
      arcsOf (barPathD x y h w) = []) ∧
    (cornerRadius ≤ h →
      arcsOf (barPathD x y h w) =
        [.arc cornerRadius cornerRadius cornerRadius (-cornerRadius),
         .arc cornerRadius cornerRadius cornerRadius cornerRadius]) := by
  constructor
  · intro hlt
    rw [barPathD, if_pos hlt]
    exact ⟨rfl, rfl⟩
  · intro hge
    rw [barPathD, if_neg (not_lt.mpr hge)]
    rfl

theorem barPath_rounding_threshold_witness :
    ((3 : ℚ) < cornerRadius ∧ arcsOf (barPathD 0 0 3 10) = []) ∧
    (cornerRadius ≤ (5 : ℚ) ∧ arcsOf (barPathD 0 0 5 10) =
      [.arc cornerRadius cornerRadius cornerRadius (-cornerRadius),
       .arc cornerRadius cornerRadius cornerRadius cornerRadius]) :=
  ⟨⟨by norm_num [cornerRadius],
    ((barPath_rounding_threshold 0 0 3 10).1 (by norm_num [cornerRadius])).2⟩,
   ⟨by norm_num [cornerRadius],
    (barPath_rounding_threshold 0 0 5 10).2 (by norm_num [cornerRadius])⟩⟩

/-- C8: a render on a nonzero viewport produces one hover zone per sample;
each zone spans the full slot width `chartWidth / sampleCount` and the
full chart height, consecutive zones are exactly adjacent (no gaps, no
overlaps), and the zone widths sum exactly to the usable chart width. -/
theorem hover_zones_tile_chart (width height : ℚ) (data : List ℤ)
    (hw : width ≠ 0) (hh : height ≠ 0) (hlen : 0 < data.length) :
    renderChart width height data
        = RenderResult.drawn (hoverZonesOf width height data.length) ∧
    (hoverZonesOf width height data.length).length = data.length ∧
    (∀ (i : ℕ) (z : Rect), (hoverZonesOf width height data.length)[i]? = some z →
        z.w = chartWidthOf width / data.length ∧ z.h = chartHeightOf height ∧
        z.y = marginTop ∧ z.x = marginLeft + i * (chartWidthOf width / data.length)) ∧
    (∀ (i : ℕ) (z z2 : Rect),
        (hoverZonesOf width height data.length)[i]? = some z →
        (hoverZonesOf width height data.length)[i + 1]? = some z2 →
        z2.x = z.x + z.w) ∧
    ((hoverZonesOf width height data.length).map Rect.w).sum = chartWidthOf width := by
  set len := data.length with hlendef
  have hcast : ((len : ℚ)) ≠ 0 := Nat.cast_ne_zero.mpr hlen.ne'
  have hget : ∀ (i : ℕ), i < len →
      (hoverZonesOf width height len)[i]? = some (hoverZoneOf width height len i) := by
    intro i h
    simp only [hoverZonesOf, List.getElem?_map, List.getElem?_range h, Option.map_some']
  refine ⟨?_, ?_, ?_, ?_, ?_⟩
  · rw [renderChart, if_neg (by push_neg; exact ⟨hw, hh⟩)]
  · simp [hoverZonesOf]
  · intro i z hz
    have hi : i < len := by
      by_contra hcon
      rw [List.getElem?_eq_none (by simp [hoverZonesOf]; omega)] at hz
      exact Option.noConfusion hz
    rw [hget i hi] at hz
    rw [← Option.some.inj hz]
    exact ⟨rfl, rfl, rfl, rfl⟩
  · intro i z z2 hz hz2
    have hi2 : i + 1 < len := by
      by_contra hcon
      rw [List.getElem?_eq_none (by simp [hoverZonesOf]; omega)] at hz2
      exact Option.noConfusion hz2
    have hi : i < len := Nat.lt_of_succ_lt hi2
    rw [hget i hi] at hz
    rw [hget (i + 1) hi2] at hz2
    rw [← Option.some.inj hz, ← Option.some.inj hz2]
    simp only [hoverZoneOf]
    push_cast
    ring
  · have hmap : (hoverZonesOf width height len).map Rect.w =
        List.replicate len (chartWidthOf width / len) := by
      simp [hoverZonesOf, hoverZoneOf, List.map_map, Function.comp_def, totalBarWidthOf,
        List.map_const']
    rw [hmap, List.sum_replicate, nsmul_eq_mul]
    exact mul_div_cancel₀ _ hcast

theorem hover_zones_tile_chart_witness :
    (800 : ℚ) ≠ 0 ∧ (300 : ℚ) ≠ 0 ∧ 0 < (List.replicate 30 (0 : ℤ)).length ∧
    ((hoverZonesOf 800 300 (List.replicate 30 (0 : ℤ)).length).map Rect.w).sum
      = chartWidthOf 800 :=
  ⟨by norm_num, by norm_num, by simp,
   (hover_zones_tile_chart 800 300 (List.replicate 30 (0 : ℤ))
      (by norm_num) (by norm_num) (by simp)).2.2.2.2⟩

/-- C9, counterexample: the claim asserts a zero-size render leaves
observable state unchanged, but `container.innerHTML = ''` on line 78 runs
before the guard on line 81, so a container previously holding a drawn
chart is left empty: the state after the call differs from the state
before it. -/
theorem render_clears_previous_content :
    renderInto (RenderResult.drawn [⟨0, 0, 1, 1⟩]) 0 300 [5] = RenderResult.cleared ∧
    RenderResult.drawn [⟨0, 0, 1, 1⟩] ≠ RenderResult.cleared := by
  constructor
  · rw [renderInto, renderChart, if_pos (Or.inl rfl)]
  · simp

/-- C9, amended: when the viewport width or height is zero the render call
produces no geometry and raises no error, but it is not a pure no-op on
observable state: the container is cleared at the start of the call, so
previously rendered content is removed and the container is left empty. -/
theorem render_zero_viewport_no_geometry (prev : RenderResult) (width height : ℚ)
    (data : List ℤ) (h : width = 0 ∨ height = 0) :
    renderInto prev width height data = RenderResult.cleared := by
  rw [renderInto, renderChart, if_pos h]

theorem render_zero_viewport_no_geometry_witness :
    ((0 : ℚ) = 0 ∨ (300 : ℚ) = 0) ∧
    renderInto (RenderResult.drawn [⟨5, 5, 2, 2⟩]) 0 300 [7] = RenderResult.cleared :=
  ⟨Or.inl rfl,
   render_zero_viewport_no_geometry (RenderResult.drawn [⟨5, 5, 2, 2⟩]) 0 300 [7] (Or.inl rfl)⟩

/-- C10: the degradation to a plain rectangle is decided by height alone,
never by width: every bar at or above the corner radius gets the rounded
path, and when the bar is narrower than twice the radius the horizontal
top segment of that path, `w - 2 * cornerRadius`, has negative length. -/
theorem rounded_path_regardless_of_width (x y h w : ℚ)
    (hh : cornerRadius ≤ h) (hw : w < 2 * cornerRadius) :
    arcsOf (barPathD x y h w) ≠ [] ∧
    hSegsOf (barPathD x y h w) = [w - 2 * cornerRadius] ∧
    w - 2 * cornerRadius < 0 := by
  refine ⟨?_, ?_, by linarith⟩
  · rw [barPathD, if_neg (not_lt.mpr hh)]
    simp [arcsOf, isArc]
  · rw [barPathD, if_neg (not_lt.mpr hh)]
    rfl

theorem rounded_path_regardless_of_width_witness :
    cornerRadius ≤ (4 : ℚ) ∧ (7 : ℚ) < 2 * cornerRadius ∧
    (arcsOf (barPathD 0 0 4 7) ≠ [] ∧
     hSegsOf (barPathD 0 0 4 7) = [7 - 2 * cornerRadius] ∧
     (7 : ℚ) - 2 * cornerRadius < 0) :=
  ⟨by norm_num [cornerRadius], by norm_num [cornerRadius],
   rounded_path_regardless_of_width 0 0 4 7
     (by norm_num [cornerRadius]) (by norm_num [cornerRadius])⟩
